import Mathlib

/-!
Verification of the presence-Media-Server signaling engine.

The repository holds several variants of a two-peer WebRTC signaling
server.  Each namespace below is a shallow embedding of one of them:

* `ServerJs`  — the signaling program in server.js (the document with the
  sessions map holding a, b, sdpStarted, sdpTimer and the SDP watchdog).
* `Part005`   — the obstruction / grace-timer variant in
  src/unnamed/part_005 (startObstruction, cancelObstruction,
  hardCollapse, cleanup).
* `Part008`   — the role-aware variant in src/unnamed/part_008.
* `IndexJs1`  — the first program in index.js (registry, protocol-header
  handshake, relaySignal; its message handler parses JSON without a
  try/catch).
* `IndexJs2`  — the second program in index.js (session table with
  hardCollapse).

Connections are identified by natural numbers standing for the distinct
socket objects.  JavaScript Map objects are embedded as association
lists preserving insertion order (Map.set replaces in place, appends new
keys at the end).  A send is modelled as an emitted (destination,
payload) pair; safeSend drops the send when the destination socket is
not in the set of open connections, exactly as the guard
ws.readyState === OPEN does.  Wall-clock timestamps (TTL bookkeeping of
the registry variants) are outside every claim and are not modelled;
timers are modelled by their armed state plus an explicit firing
transition.
-/

abbrev ConnId := Nat

abbrev Key := String

/-- Outgoing payloads that the embedded servers can emit. -/
inductive Payload where
  | ready (role : Option String)
  | pong
  | collapse (reason : String)
  | collapseHard (reason : String)
  | collapseGraceElapsed (reason : String)
  | peerObstructed (seconds : Nat) (reason : String)
  | peerRestored
  | relay (ty : String) (body : String)
  | registryUpdate (ids : List Key)
deriving DecidableEq, Repr

/-- One emitted message: destination connection and payload. -/
abbrev Out := ConnId × Payload

/-- Lookup in an association list (JavaScript Map.get). -/
def alookup {β : Type} : List (Key × β) → Key → Option β
  | [], _ => none
  | (k, v) :: t, x => if k = x then some v else alookup t x

/-- Update in an association list (JavaScript Map.set): replaces the
value in place when the key is present, appends otherwise. -/
def aset {β : Type} : List (Key × β) → Key → β → List (Key × β)
  | [], x, v => [(x, v)]
  | (k, w) :: t, x, v => if k = x then (x, v) :: t else (k, w) :: aset t x v

/-- Deletion from an association list (JavaScript Map.delete). -/
def aerase {β : Type} (t : List (Key × β)) (x : Key) : List (Key × β) :=
  t.filter (fun kv => kv.1 ≠ x)

/-- Lookup in a connection-keyed association list (fields such as
ws.sessionId live on the socket object; this map carries them). -/
def clookup {β : Type} : List (ConnId × β) → ConnId → Option β
  | [], _ => none
  | (k, v) :: t, x => if k = x then some v else clookup t x

/-- Update in a connection-keyed association list. -/
def cset {β : Type} : List (ConnId × β) → ConnId → β → List (ConnId × β)
  | [], x, v => [(x, v)]
  | (k, w) :: t, x, v => if k = x then (x, v) :: t else (k, w) :: cset t x v

/-- Embedding of safeSend: emit the message only when the destination
exists and its socket is open (ws.readyState === WebSocket.OPEN). -/
def safeSend (alive : List ConnId) (ws? : Option ConnId) (p : Payload) : List Out :=
  match ws? with
  | none => []
  | some w => if alive.contains w then [(w, p)] else []

namespace ServerJs

/-- Session record of server.js: sessionId maps to
{ a, b, sdpStarted, sdpTimer }.  sdpTimerArmed is true while the
watchdog timeout is pending (set at pairing, cancelled by clearTimeout
in cleanup). -/
structure Session where
  a : Option ConnId
  b : Option ConnId
  sdpStarted : Bool
  sdpTimerArmed : Bool
deriving DecidableEq, Repr

/-- Whole mutable state of server.js: the sessions map, the
ws.sessionId field of every socket that has one, and the set of open
sockets. -/
structure State where
  table : List (Key × Session)
  wsSess : List (ConnId × Key)
  openConns : List ConnId
deriving DecidableEq, Repr

/-- Embedding of getPeer. -/
def getPeer (st : State) (ws : ConnId) : Option ConnId :=
  match clookup st.wsSess ws with
  | none => none
  | some k =>
    match alookup st.table k with
    | none => none
    | some s => if s.a = some ws then s.b else s.a

/-- Embedding of cleanup: null out the slots held by ws, cancel the
watchdog timer, and delete the session when both slots are null. -/
def cleanup (st : State) (ws : ConnId) : State :=
  match clookup st.wsSess ws with
  | none => st
  | some k =>
    match alookup st.table k with
    | none => st
    | some s =>
      let s1 : Session :=
        { a := if s.a = some ws then none else s.a
          b := if s.b = some ws then none else s.b
          sdpStarted := s.sdpStarted
          sdpTimerArmed := false }
      if s1.a = none ∧ s1.b = none then
        { st with table := aerase st.table k }
      else
        { st with table := aset st.table k s1 }

/-- Embedding of the join case: record ws.sessionId, create the session
with ws in slot a when the key is unknown, otherwise fill slot b and
emit the ready pair (arming the SDP watchdog), otherwise only log
SESSION_FULL and emit nothing. -/
def handleJoin (st : State) (ws : ConnId) (sid? : Option Key) : State × List Out :=
  match sid? with
  | none => (st, [])
  | some k =>
    let st1 : State := { st with wsSess := cset st.wsSess ws k }
    match alookup st1.table k with
    | none =>
      ({ st1 with table := aset st1.table k ⟨some ws, none, false, false⟩ }, [])
    | some s =>
      if s.b = none then
        ({ st1 with table := aset st1.table k { s with b := some ws, sdpTimerArmed := true } },
          safeSend st1.openConns s.a (.ready none) ++
            safeSend st1.openConns (some ws) (.ready none))
      else
        (st1, [])

/-- Embedding of the webrtc_offer / webrtc_answer / webrtc_ice relay
case: drop when no peer, otherwise mark sdpStarted and forward the
message to the peer immediately. -/
def handleWebrtc (st : State) (ws : ConnId) (ty body : String) : State × List Out :=
  match getPeer st ws with
  | none => (st, [])
  | some peer =>
    let st1 : State :=
      match clookup st.wsSess ws with
      | none => st
      | some k =>
        match alookup st.table k with
        | none => st
        | some s =>
          if s.sdpStarted then st
          else { st with table := aset st.table k { s with sdpStarted := true } }
    (st1, safeSend st1.openConns (some peer) (.relay ty body))

/-- Embedding of the text / hold / clear / reveal_frame relay case. -/
def handleLiveRelay (st : State) (ws : ConnId) (ty body : String) : State × List Out :=
  match getPeer st ws with
  | none => (st, [])
  | some peer => (st, safeSend st.openConns (some peer) (.relay ty body))

/-- Embedding of the collapse case: notify the peer with the given
reason (defaulting to peer_exit), then cleanup. -/
def handleCollapse (st : State) (ws : ConnId) (reason? : Option String) : State × List Out :=
  let out :=
    match getPeer st ws with
    | some p => safeSend st.openConns (some p) (.collapse (reason?.getD "peer_exit"))
    | none => []
  (cleanup st ws, out)

/-- Embedding of the close handler: notify the peer with reason
peer_lost, then cleanup.  The heartbeat sweep terminates a dead socket,
which fires this same handler. -/
def handleClose (st : State) (ws : ConnId) : State × List Out :=
  let out :=
    match getPeer st ws with
    | some p => safeSend st.openConns (some p) (.collapse "peer_lost")
    | none => []
  (cleanup st ws, out)

/-- Parsed client messages of server.js.  ty in the webrtc constructor
ranges over webrtc_offer, webrtc_answer, webrtc_ice; ty in live ranges
over text, hold, clear, reveal_frame. -/
inductive ClientMsg where
  | join (sid? : Option Key)
  | ping
  | webrtc (ty body : String)
  | live (ty body : String)
  | collapse (reason? : Option String)
  | other (ty : String)
deriving DecidableEq, Repr

/-- Embedding of the whole message handler.  none stands for a raw
frame that JSON.parse rejects: the catch block logs BAD_JSON and
returns without touching any state. -/
def handleMessage (st : State) (ws : ConnId) (raw? : Option ClientMsg) : State × List Out :=
  match raw? with
  | none => (st, [])
  | some m =>
    match m with
    | .join sid? => handleJoin st ws sid?
    | .ping => (st, safeSend st.openConns (some ws) .pong)
    | .webrtc ty body => handleWebrtc st ws ty body
    | .live ty body => handleLiveRelay st ws ty body
    | .collapse r? => handleCollapse st ws r?
    | .other _ => (st, [])

/-- SDP watchdog delay of server.js. -/
def SDP_TIMEOUT_MS : Nat := 15000

/-- Embedding of the watchdog callback armed at pairing: if sdpStarted
is still false it sends collapse with reason sdp_timeout to both
occupants and cleans both up; otherwise it does nothing.  The callback
only runs while the timeout is pending (cleanup cancels it), which the
theorems record as the hypothesis sdpTimerArmed = true. -/
def fireSdpTimer (st : State) (k : Key) : State × List Out :=
  match alookup st.table k with
  | none => (st, [])
  | some s =>
    if s.sdpStarted then (st, [])
    else
      let out := safeSend st.openConns s.a (.collapse "sdp_timeout") ++
        safeSend st.openConns s.b (.collapse "sdp_timeout")
      let st1 := match s.a with | some x => cleanup st x | none => st
      let st2 := match s.b with | some y => cleanup st1 y | none => st1
      (st2, out)

/-- Slot occupancy view of a session table (key, slot a, slot b). -/
def slotsOf (t : List (Key × Session)) : List (Key × Option ConnId × Option ConnId) :=
  t.map (fun kv => (kv.1, kv.2.a, kv.2.b))

end ServerJs

namespace Part005

/-- Grace window of the obstruction timers in part_005. -/
def COLLAPSE_GRACE_SECONDS : Nat := 10

/-- Session record of part_005: sessionId maps to { a, b, timers }
where timers is a Map from an occupant socket to its pending grace
Timeout.  The embedding keeps the domain of that map: the list of
occupants with an armed timer. -/
structure Session where
  a : Option ConnId
  b : Option ConnId
  timers : List ConnId
deriving DecidableEq, Repr

/-- Whole mutable state of part_005. -/
structure State where
  table : List (Key × Session)
  wsSess : List (ConnId × Key)
  openConns : List ConnId
deriving DecidableEq, Repr

/-- Embedding of getSession. -/
def getSession (st : State) (ws : ConnId) : Option Session :=
  match clookup st.wsSess ws with
  | none => none
  | some k => alookup st.table k

/-- Embedding of getPeer. -/
def getPeer (st : State) (ws : ConnId) : Option ConnId :=
  match getSession st ws with
  | none => none
  | some s => if s.a = some ws then s.b else s.a

/-- Embedding of startObstruction: resolve the peer of the reporting
actor; if the peer already has a pending timer the call returns with no
effect; otherwise it notifies the peer with peer_obstructed and arms a
grace timer keyed to the peer. -/
def startObstruction (st : State) (actor : ConnId) (reason : String) : State × List Out :=
  match clookup st.wsSess actor with
  | none => (st, [])
  | some k =>
    match alookup st.table k with
    | none => (st, [])
    | some s =>
      match (if s.a = some actor then s.b else s.a) with
      | none => (st, [])
      | some peer =>
        if s.timers.contains peer then (st, [])
        else
          ({ st with table := aset st.table k { s with timers := peer :: s.timers } },
            safeSend st.openConns (some peer)
              (.peerObstructed COLLAPSE_GRACE_SECONDS reason))

/-- Embedding of cancelObstruction: if the actor has a pending timer,
clear it, remove it from the timers map and notify the actor with
peer_restored; otherwise do nothing. -/
def cancelObstruction (st : State) (actor : ConnId) : State × List Out :=
  match clookup st.wsSess actor with
  | none => (st, [])
  | some k =>
    match alookup st.table k with
    | none => (st, [])
    | some s =>
      if s.timers.contains actor then
        let t1 := aset st.table k { s with timers := s.timers.filter (fun c => c != actor) }
        ({ st with table := t1 }, safeSend st.openConns (some actor) .peerRestored)
      else (st, [])

/-- Embedding of cleanup: run cancelObstruction on ws (inlined: the
source mutates the same session object), null out the slots held by
ws, and delete the session when both slots are null. -/
def cleanup (st : State) (ws : ConnId) : State × List Out :=
  match clookup st.wsSess ws with
  | none => (st, [])
  | some k =>
    match alookup st.table k with
    | none => (st, [])
    | some s =>
      let restored : Bool := s.timers.contains ws
      let out := if restored then safeSend st.openConns (some ws) .peerRestored else []
      let timers1 := if restored then s.timers.filter (fun c => c != ws) else s.timers
      let s1 : Session :=
        { a := if s.a = some ws then none else s.a
          b := if s.b = some ws then none else s.b
          timers := timers1 }
      if s1.a = none ∧ s1.b = none then
        ({ st with table := aerase st.table k }, out)
      else
        ({ st with table := aset st.table k s1 }, out)

/-- Embedding of hardCollapse: notify the peer with collapse_hard, then
cleanup.  The close handler and the heartbeat sweep both call it. -/
def hardCollapse (st : State) (ws : ConnId) (reason : String) : State × List Out :=
  let peerOut :=
    match getPeer st ws with
    | some p => safeSend st.openConns (some p) (.collapseHard reason)
    | none => []
  let r := cleanup st ws
  (r.1, peerOut ++ r.2)

end Part005

namespace Part008

/-- Session record of part_008: sessionId maps to { a, b }. -/
structure Session where
  a : Option ConnId
  b : Option ConnId
deriving DecidableEq, Repr

/-- Whole mutable state of part_008. -/
structure State where
  table : List (Key × Session)
  wsSess : List (ConnId × Key)
  openConns : List ConnId
deriving DecidableEq, Repr

/-- Embedding of the join case of part_008: the first occupant is
seated in slot a silently; the second fills slot b and both receive
ready, slot a labelled initiator and slot b labelled polite. -/
def handleJoin (st : State) (ws : ConnId) (sid? : Option Key) : State × List Out :=
  match sid? with
  | none => (st, [])
  | some k =>
    let st1 : State := { st with wsSess := cset st.wsSess ws k }
    match alookup st1.table k with
    | none =>
      ({ st1 with table := aset st1.table k ⟨some ws, none⟩ }, [])
    | some s =>
      if s.b = none then
        ({ st1 with table := aset st1.table k { s with b := some ws } },
          safeSend st1.openConns s.a (.ready (some "initiator")) ++
            safeSend st1.openConns (some ws) (.ready (some "polite")))
      else
        (st1, [])

end Part008

namespace IndexJs1

/-- Registry entry of the first index.js program: a Presence object
{ id, nickname, isPersistent, socket }.  The id equals the registry
key; TTL timestamps are not modelled (wall clock). -/
structure Entry where
  nickname : String
  isPersistent : Bool
  socket : Option ConnId
deriving DecidableEq, Repr

/-- Whole mutable state of the first index.js program: the registry,
the server client set with each socket and its protocol header
(insertion order), and the open sockets. -/
structure State where
  registry : List (Key × Entry)
  clients : List (ConnId × Key)
  openConns : List ConnId
deriving DecidableEq, Repr

/-- Embedding of the connection handler: reject when no protocol header
is given; otherwise create or link the registry entry and, when another
open client with the same protocol exists, send ready role initiator to
the NEW connection and ready role polite to the first matching existing
one. -/
def handleConnect (st : State) (ws : ConnId) (addr? : Option Key) : State × List Out :=
  match addr? with
  | none => ({ st with openConns := st.openConns.filter (fun c => c != ws) }, [])
  | some addr =>
    let clients1 := st.clients ++ [(ws, addr)]
    let registry1 :=
      match alookup st.registry addr with
      | none => aset st.registry addr ⟨"GUEST", false, some ws⟩
      | some e => aset st.registry addr { e with socket := some ws }
    let st1 : State := ⟨registry1, clients1, st.openConns⟩
    let peers := clients1.filter
      (fun c => c.1 != ws && c.2 == addr && st1.openConns.contains c.1)
    match peers with
    | [] => (st1, [])
    | p :: _ =>
      (st1, [(ws, .ready (some "initiator")), (p.1, .ready (some "polite"))])

/-- Embedding of broadcastRegistry: every client of the server receives
a registry_update snapshot. -/
def broadcastRegistry (st : State) : List Out :=
  st.clients.map (fun c => (c.1, Payload.registryUpdate (st.registry.map (fun kv => kv.1))))

/-- Embedding of relaySignal: forward the payload to every open client
on the same protocol other than the socket currently linked in the
registry entry.  When the registry has no entry for the address the
source dereferences undefined and throws. -/
def relaySignal (st : State) (addr : Key) (ty body : String) : Except String (List Out) :=
  match alookup st.registry addr with
  | none => .error "TypeError: cannot read properties of undefined"
  | some e =>
    .ok ((st.clients.filter
      (fun c => c.2 == addr && st.openConns.contains c.1 && some c.1 != e.socket)).map
        (fun c => (c.1, Payload.relay ty body)))

/-- Parsed client messages of the first index.js program. -/
inductive ClientMsg where
  | reserveRequest (address nickname : String) (hours : Nat)
  | deleteRequest (id : Key)
  | identityBroadcast (nickname : String)
  | webrtc (ty body : String)
  | other (ty : String)
deriving DecidableEq, Repr

/-- Embedding of the message handler of the first index.js program.
The source runs const msg = JSON.parse(message) with no try/catch, so a
raw frame that JSON.parse rejects (the none case) throws and the
exception escapes the handler; this is the error branch. -/
def onMessage (st : State) (addr : Key) (raw? : Option ClientMsg) :
    Except String (State × List Out) :=
  match raw? with
  | none => .error "SyntaxError: unexpected token, JSON.parse failed"
  | some m =>
    match m with
    | .reserveRequest a n _hours =>
      let st1 : State := { st with registry := aset st.registry a ⟨n, true, none⟩ }
      .ok (st1, broadcastRegistry st1)
    | .deleteRequest i =>
      let st1 : State := { st with registry := aerase st.registry i }
      .ok (st1, broadcastRegistry st1)
    | .identityBroadcast n =>
      let st1 : State :=
        { st with registry :=
            match alookup st.registry addr with
            | some e => aset st.registry addr { e with nickname := n }
            | none => st.registry }
      .ok (st1, broadcastRegistry st1)
    | .webrtc ty body =>
      match relaySignal st addr ty body with
      | .error e => .error e
      | .ok out => .ok (st, out)
    | .other _ => .ok (st, [])

/-- Embedding of the close handler of the first index.js program (the
transport first drops the closed socket from the client set): when the
registry entry of the captured address exists and is ephemeral, the
entry is deleted and a registry_update snapshot is broadcast to the
remaining clients; when the entry is persistent only its socket link
is nulled and nothing is sent; no terminal reason-carrying message is
produced on any branch. -/
def handleClose (st : State) (ws : ConnId) (addr : Key) : State × List Out :=
  let st0 : State :=
    { st with clients := st.clients.filter (fun c => c.1 != ws)
              openConns := st.openConns.filter (fun c => c != ws) }
  match alookup st0.registry addr with
  | none => (st0, [])
  | some e =>
    if e.isPersistent then
      ({ st0 with registry := aset st0.registry addr { e with socket := none } }, [])
    else
      let st1 : State := { st0 with registry := aerase st0.registry addr }
      (st1, broadcastRegistry st1)

end IndexJs1

namespace IndexJs2

/-- Session record of the second index.js program: sessionId maps to
{ a, b } (the timer field of the comment is never used). -/
structure Session where
  a : Option ConnId
  b : Option ConnId
deriving DecidableEq, Repr

/-- Whole mutable state of the second index.js program. -/
structure State where
  table : List (Key × Session)
  wsSess : List (ConnId × Key)
  openConns : List ConnId
deriving DecidableEq, Repr

/-- Embedding of hardCollapse: return silently when the session of ws
does not exist; otherwise notify the peer (resolved as in getPeer),
null out the slots held by ws, delete the session when both slots are
null, and terminate the socket of ws. -/
def hardCollapse (st : State) (ws : ConnId) (reason : String) : State × List Out :=
  match clookup st.wsSess ws with
  | none => (st, [])
  | some k =>
    match alookup st.table k with
    | none => (st, [])
    | some s =>
      let peer := if s.a = some ws then s.b else s.a
      let out := safeSend st.openConns peer (.collapse reason)
      let s1 : Session :=
        { a := if s.a = some ws then none else s.a
          b := if s.b = some ws then none else s.b }
      let table1 :=
        if s1.a = none ∧ s1.b = none then aerase st.table k
        else aset st.table k s1
      ({ table := table1, wsSess := st.wsSess
         openConns := st.openConns.filter (fun c => c != ws) }, out)

end IndexJs2

/-- No-empty-session invariant for the server.js table: no stored
session has both slots null. -/
def ServerJs.noEmptySessions (t : List (Key × ServerJs.Session)) : Prop :=
  ∀ kv ∈ t, kv.2.a ≠ none ∨ kv.2.b ≠ none

/-- No-empty-session invariant for the part_005 table. -/
def Part005.noEmptySessions (t : List (Key × Part005.Session)) : Prop :=
  ∀ kv ∈ t, kv.2.a ≠ none ∨ kv.2.b ≠ none

/-- No-empty-session invariant for the table of the second index.js
program. -/
def IndexJs2.noEmptySessions (t : List (Key × IndexJs2.Session)) : Prop :=
  ∀ kv ∈ t, kv.2.a ≠ none ∨ kv.2.b ≠ none

/-- At-most-one-timer invariant for the part_005 table: in every stored
session the timers map holds each occupant at most once. -/
def Part005.timersNodup (t : List (Key × Part005.Session)) : Prop :=
  ∀ kv ∈ t, kv.2.timers.Nodup

/-! Helper lemmas about the association-list embedding of Map. -/

theorem alookup_aset_self {β : Type} (t : List (Key × β)) (k : Key) (v : β) :
    alookup (aset t k v) k = some v := by
  induction t with
  | nil => simp [aset, alookup]
  | cons hd tl ih =>
    by_cases h : hd.1 = k
    · simp [aset, alookup, h]
    · simp only [aset, alookup]
      rw [if_neg h, alookup, if_neg h]
      exact ih

theorem alookup_aerase_self {β : Type} (t : List (Key × β)) (k : Key) :
    alookup (aerase t k) k = none := by
  induction t with
  | nil => simp [aerase, alookup]
  | cons hd tl ih =>
    by_cases h : hd.1 = k
    · simpa [aerase, h] using ih
    · simpa [aerase, alookup, h] using ih

theorem mem_aset {β : Type} {t : List (Key × β)} {k : Key} {v : β} {kv : Key × β}
    (h : kv ∈ aset t k v) : kv = (k, v) ∨ kv ∈ t := by
  induction t with
  | nil => simpa [aset] using h
  | cons hd tl ih =>
    by_cases hk : hd.1 = k
    · rw [aset, if_pos hk] at h
      rcases List.mem_cons.mp h with h1 | h1
      · exact Or.inl h1
      · exact Or.inr (List.mem_cons_of_mem _ h1)
    · rw [aset, if_neg hk] at h
      rcases List.mem_cons.mp h with h1 | h1
      · exact Or.inr (h1 ▸ List.mem_cons_self _ _)
      · rcases ih h1 with h2 | h2
        · exact Or.inl h2
        · exact Or.inr (List.mem_cons_of_mem _ h2)

theorem mem_aerase {β : Type} {t : List (Key × β)} {k : Key} {kv : Key × β}
    (h : kv ∈ aerase t k) : kv ∈ t :=
  List.mem_of_mem_filter h

theorem aset_self {β : Type} {t : List (Key × β)} {k : Key} {v : β}
    (h : alookup t k = some v) : aset t k v = t := by
  induction t with
  | nil => simp [alookup] at h
  | cons hd tl ih =>
    by_cases hk : hd.1 = k
    · rw [alookup, if_pos hk] at h
      rw [aset, if_pos hk]
      cases hd with
      | mk k0 v0 =>
        simp only at hk
        simp only [Option.some.injEq] at h
        rw [hk, h]
    · rw [alookup, if_neg hk] at h
      rw [aset, if_neg hk, ih h]

theorem filter_bne_eq_self {l : List ConnId} {w : ConnId} (h : w ∉ l) :
    l.filter (fun c => c != w) = l := by
  refine List.filter_eq_self.mpr ?_
  intro a ha
  have : a ≠ w := fun e => h (e ▸ ha)
  simpa [bne_iff_ne] using this


theorem aset_preserves {β : Type} {P : β → Prop} {t : List (Key × β)} {k : Key} {v : β}
    (ht : ∀ kv ∈ t, P kv.2) (hv : P v) : ∀ kv ∈ aset t k v, P kv.2 := by
  intro kv hkv
  rcases mem_aset hkv with h | h
  · rw [h]
    exact hv
  · exact ht kv h

theorem aerase_preserves {β : Type} {P : β → Prop} {t : List (Key × β)} {k : Key}
    (ht : ∀ kv ∈ t, P kv.2) : ∀ kv ∈ aerase t k, P kv.2 :=
  fun kv hkv => ht kv (mem_aerase hkv)

theorem slotsOf_aset {t : List (Key × ServerJs.Session)} {k : Key}
    {s s1 : ServerJs.Session} (h : alookup t k = some s) (ha : s1.a = s.a)
    (hb : s1.b = s.b) : ServerJs.slotsOf (aset t k s1) = ServerJs.slotsOf t := by
  induction t with
  | nil => simp [alookup] at h
  | cons hd tl ih =>
    by_cases hk : hd.1 = k
    · rw [alookup, if_pos hk] at h
      rw [aset, if_pos hk]
      simp only [Option.some.injEq] at h
      simp [ServerJs.slotsOf, hk, ha, hb, h]
    · rw [alookup, if_neg hk] at h
      rw [aset, if_neg hk]
      simp [ServerJs.slotsOf] at ih ⊢
      exact ih h

/-! Claim theorems. -/

/-- C1, counterexample.  In a paired server.js session where no
descriptor has been relayed yet (sdpStarted is still false, so the
descriptor-sent flag of the receiving peer could not possibly be true),
a webrtc_ice candidate from occupant 1 is forwarded to occupant 2
immediately — it is not appended to any pending queue and held, as the
claim states; the relay case treats candidates exactly like offers and
answers. -/
theorem c1_counterexample :
    (ServerJs.handleWebrtc
        ⟨[("K", ⟨some 1, some 2, false, true⟩)], [(1, "K"), (2, "K")], [1, 2]⟩
        1 "webrtc_ice" "cand").2 = [(2, .relay "webrtc_ice" "cand")] ∧
    (ServerJs.handleWebrtc
        ⟨[("K", ⟨some 1, some 2, false, true⟩)], [(1, "K"), (2, "K")], [1, 2]⟩
        1 "webrtc_ice" "cand").2 ≠ [] := by decide

/-- C1, amended.  server.js relays a webrtc_ice payload to the peer
immediately whenever the sender has a peer, regardless of any
descriptor state, and drops it when there is no peer; no candidate is
ever stored: the resulting state keeps the same slots, the same
ws.sessionId map and the same open connections (only the sdpStarted
flag of the session of the sender may change). -/
theorem c1_candidate_relay_immediate (st : ServerJs.State) (ws : ConnId) (body : String) :
    ((ServerJs.handleWebrtc st ws "webrtc_ice" body).2 =
      match ServerJs.getPeer st ws with
      | some p => safeSend st.openConns (some p) (.relay "webrtc_ice" body)
      | none => []) ∧
    ServerJs.slotsOf (ServerJs.handleWebrtc st ws "webrtc_ice" body).1.table =
      ServerJs.slotsOf st.table ∧
    (ServerJs.handleWebrtc st ws "webrtc_ice" body).1.wsSess = st.wsSess ∧
    (ServerJs.handleWebrtc st ws "webrtc_ice" body).1.openConns = st.openConns := by
  cases hp : ServerJs.getPeer st ws with
  | none => simp [ServerJs.handleWebrtc, hp]
  | some p =>
    cases hc : clookup st.wsSess ws with
    | none => simp [ServerJs.handleWebrtc, hp, hc]
    | some k =>
      cases hs : alookup st.table k with
      | none => simp [ServerJs.handleWebrtc, hp, hc, hs]
      | some s =>
        by_cases hsd : s.sdpStarted
        · simp [ServerJs.handleWebrtc, hp, hc, hs, hsd]
        · simp [ServerJs.handleWebrtc, hp, hc, hs, hsd]
          exact slotsOf_aset hs rfl rfl

/-- C2, code evaluated at the failing input.  server.js, session K full
with occupants 1 and 2, connection 3 joins (all sockets open): the
server emits no message at all to connection 3 — the join is only
logged as SESSION_FULL — while the two existing slots stay unchanged
and the sessionId field of the third socket is even set to K.  The
explicit Rejected notice that the claim requires is never sent. -/
theorem c2_third_join_silently_ignored :
    (ServerJs.handleJoin
        ⟨[("K", ⟨some 1, some 2, false, true⟩)], [(1, "K"), (2, "K")], [1, 2, 3]⟩
        3 (some "K")).2 = [] ∧
    alookup (ServerJs.handleJoin
        ⟨[("K", ⟨some 1, some 2, false, true⟩)], [(1, "K"), (2, "K")], [1, 2, 3]⟩
        3 (some "K")).1.table "K" = some ⟨some 1, some 2, false, true⟩ ∧
    clookup (ServerJs.handleJoin
        ⟨[("K", ⟨some 1, some 2, false, true⟩)], [(1, "K"), (2, "K")], [1, 2, 3]⟩
        3 (some "K")).1.wsSess 3 = some "K" := by decide

/-- C8.  server.js drops an unparseable frame silently: the state is
untouched and nothing is emitted.  The first index.js program instead
runs JSON.parse without a try/catch, so the same frame makes the
exception escape the message handler. -/
theorem c8_bad_json (st : ServerJs.State) (ws : ConnId)
    (st1 : IndexJs1.State) (addr : Key) :
    ServerJs.handleMessage st ws none = (st, []) ∧
    IndexJs1.onMessage st1 addr none =
      Except.error "SyntaxError: unexpected token, JSON.parse failed" :=
  ⟨rfl, rfl⟩

theorem serverjs_cleanup_preserves (st : ServerJs.State) (ws : ConnId)
    (h : ServerJs.noEmptySessions st.table) :
    ServerJs.noEmptySessions (ServerJs.cleanup st ws).table := by
  unfold ServerJs.noEmptySessions at h ⊢
  unfold ServerJs.cleanup
  split
  · exact h
  · split
    · exact h
    · rename_i s heq
      dsimp only
      by_cases hcond :
          (if s.a = some ws then none else s.a) = (none : Option ConnId) ∧
          (if s.b = some ws then none else s.b) = (none : Option ConnId)
      · rw [if_pos hcond]
        exact @aerase_preserves _ (fun v : ServerJs.Session => v.a ≠ none ∨ v.b ≠ none) _ _ h
      · rw [if_neg hcond]
        exact @aset_preserves _ (fun v : ServerJs.Session => v.a ≠ none ∨ v.b ≠ none) _ _ _ h
          (not_and_or.mp hcond)

theorem part005_cleanup_preserves (st : Part005.State) (ws : ConnId)
    (h : Part005.noEmptySessions st.table) :
    Part005.noEmptySessions (Part005.cleanup st ws).1.table := by
  unfold Part005.noEmptySessions at h ⊢
  unfold Part005.cleanup
  split
  · exact h
  · split
    · exact h
    · rename_i s heq
      dsimp only
      by_cases hcond :
          (if s.a = some ws then none else s.a) = (none : Option ConnId) ∧
          (if s.b = some ws then none else s.b) = (none : Option ConnId)
      · rw [if_pos hcond]
        exact @aerase_preserves _ (fun v : Part005.Session => v.a ≠ none ∨ v.b ≠ none) _ _ h
      · rw [if_neg hcond]
        exact @aset_preserves _ (fun v : Part005.Session => v.a ≠ none ∨ v.b ≠ none) _ _ _ h
          (not_and_or.mp hcond)

theorem indexjs2_hard_collapse_preserves (st : IndexJs2.State) (ws : ConnId)
    (reason : String) (h : IndexJs2.noEmptySessions st.table) :
    IndexJs2.noEmptySessions (IndexJs2.hardCollapse st ws reason).1.table := by
  unfold IndexJs2.noEmptySessions at h ⊢
  unfold IndexJs2.hardCollapse
  split
  · exact h
  · split
    · exact h
    · rename_i s heq
      dsimp only
      by_cases hcond :
          (if s.a = some ws then none else s.a) = (none : Option ConnId) ∧
          (if s.b = some ws then none else s.b) = (none : Option ConnId)
      · rw [if_pos hcond]
        exact @aerase_preserves _ (fun v : IndexJs2.Session => v.a ≠ none ∨ v.b ≠ none) _ _ h
      · rw [if_neg hcond]
        exact @aset_preserves _ (fun v : IndexJs2.Session => v.a ≠ none ∨ v.b ≠ none) _ _ _ h
          (not_and_or.mp hcond)

/-- C4.  Every operation that nulls a session slot keeps the
no-empty-session invariant: cleanup in server.js (run by the collapse
case, the close handler and the SDP watchdog), cleanup in part_005 and
hardCollapse in the second index.js program either leave a slot
occupied or delete the session entry in the same step, so a table
without both-null sessions never acquires one. -/
theorem c4_no_empty_sessions :
    (∀ (st : ServerJs.State) (ws : ConnId), ServerJs.noEmptySessions st.table →
      ServerJs.noEmptySessions (ServerJs.cleanup st ws).table) ∧
    (∀ (st : Part005.State) (ws : ConnId), Part005.noEmptySessions st.table →
      Part005.noEmptySessions (Part005.cleanup st ws).1.table) ∧
    (∀ (st : IndexJs2.State) (ws : ConnId) (reason : String),
      IndexJs2.noEmptySessions st.table →
      IndexJs2.noEmptySessions (IndexJs2.hardCollapse st ws reason).1.table) :=
  ⟨serverjs_cleanup_preserves, part005_cleanup_preserves, indexjs2_hard_collapse_preserves⟩

/-- C4, witness: the invariant computed at concrete states in which the
cleaned-up occupant was the last one (the entry disappears) or one of
two (the entry stays with one occupied slot). -/
theorem c4_witness :
    ServerJs.noEmptySessions
      (ServerJs.cleanup ⟨[("K", ⟨some 1, some 2, false, false⟩)], [(1, "K")], [1, 2]⟩ 1).table ∧
    Part005.noEmptySessions
      (Part005.cleanup ⟨[("K", ⟨some 1, none, []⟩)], [(1, "K")], [1]⟩ 1).1.table ∧
    IndexJs2.noEmptySessions
      (IndexJs2.hardCollapse ⟨[("K", ⟨some 1, some 2⟩)], [(2, "K")], [1, 2]⟩ 2 "bye").1.table :=
  ⟨c4_no_empty_sessions.1 _ 1 (by unfold ServerJs.noEmptySessions; decide),
   c4_no_empty_sessions.2.1 _ 1 (by unfold Part005.noEmptySessions; decide),
   c4_no_empty_sessions.2.2 _ 2 "bye" (by unfold IndexJs2.noEmptySessions; decide)⟩

/-- C5, counterexample.  One uninterrupted lifetime of the session K in
server.js (the entry is created by the join of connection 1 and is
still present in every later state): pairing with connection 2 emits
the ready pair, connection 2 then collapses — the entry survives with
slot a still held by 1 — and a join by connection 3 refills slot b and
emits a SECOND ready pair.  The ready pair is therefore not emitted
exactly once over the lifetime of the session. -/
theorem c5_counterexample :
    (let r1 := ServerJs.handleJoin ⟨[], [], [1, 2, 3]⟩ 1 (some "K")
     let r2 := ServerJs.handleJoin r1.1 2 (some "K")
     let r3 := ServerJs.handleCollapse r2.1 2 none
     let r4 := ServerJs.handleJoin r3.1 3 (some "K")
     r2.2 = [(1, .ready none), (2, .ready none)] ∧
     alookup r3.1.table "K" = some ⟨some 1, none, false, false⟩ ∧
     r4.2 = [(1, .ready none), (3, .ready none)]) := by decide

/-- C5, amended.  server.js emits the ready pair exactly when a join
fills slot b of an existing session: a join to a session whose slot b
is occupied is silently ignored (in particular a third connection
joining a fully paired session never re-emits ready), while any join
that finds slot b empty — including a re-join after the slot-b occupant
departed while slot a stayed — emits the ready pair again. -/
theorem c5_ready_iff_slot_b_filled (st : ServerJs.State) (ws : ConnId) (k : Key)
    (s : ServerJs.Session) (hs : alookup st.table k = some s) :
    (s.b ≠ none → ServerJs.handleJoin st ws (some k) =
      ({ st with wsSess := cset st.wsSess ws k }, [])) ∧
    (s.b = none → (ServerJs.handleJoin st ws (some k)).2 =
      safeSend st.openConns s.a (.ready none) ++
        safeSend st.openConns (some ws) (.ready none)) := by
  constructor
  · intro hb
    simp [ServerJs.handleJoin, hs, hb]
  · intro hb
    simp [ServerJs.handleJoin, hs, hb]

/-- C5, witness: a third join to the full session K changes only the
sessionId of the joiner and emits nothing; a join to the half-vacated
session K emits the ready pair. -/
theorem c5_witness :
    ServerJs.handleJoin
        ⟨[("K", ⟨some 1, some 2, false, true⟩)], [(1, "K"), (2, "K")], [1, 2, 3]⟩
        3 (some "K") =
      (⟨[("K", ⟨some 1, some 2, false, true⟩)], [(1, "K"), (2, "K"), (3, "K")], [1, 2, 3]⟩, []) ∧
    (ServerJs.handleJoin ⟨[("K", ⟨some 1, none, false, false⟩)], [(1, "K")], [1, 2]⟩
        2 (some "K")).2 =
      safeSend [1, 2] (some 1) (.ready none) ++ safeSend [1, 2] (some 2) (.ready none) :=
  ⟨(c5_ready_iff_slot_b_filled
      ⟨[("K", ⟨some 1, some 2, false, true⟩)], [(1, "K"), (2, "K")], [1, 2, 3]⟩
      3 "K" ⟨some 1, some 2, false, true⟩ rfl).1 (by decide),
   (c5_ready_iff_slot_b_filled ⟨[("K", ⟨some 1, none, false, false⟩)], [(1, "K")], [1, 2]⟩
      2 "K" ⟨some 1, none, false, false⟩ rfl).2 rfl⟩

/-- C6, counterexample.  Second index.js program, session K with
occupants 1 (slot a) and 2 (slot b): the first hardCollapse on
connection 2 removes it from its slot (the table then holds only slot
a), yet a second hardCollapse on the already-removed connection 2
resolves getPeer to slot a and sends the collapse notification to
connection 1 AGAIN — the second invocation is not free of outgoing
messages, so hard collapse is not idempotent as claimed. -/
theorem c6_counterexample :
    alookup (IndexJs2.hardCollapse
        ⟨[("K", ⟨some 1, some 2⟩)], [(1, "K"), (2, "K")], [1, 2]⟩
        2 "socket_closed").1.table "K" = some ⟨some 1, none⟩ ∧
    (IndexJs2.hardCollapse (IndexJs2.hardCollapse
        ⟨[("K", ⟨some 1, some 2⟩)], [(1, "K"), (2, "K")], [1, 2]⟩
        2 "socket_closed").1 2 "socket_closed").2 = [(1, .collapse "socket_closed")] ∧
    (IndexJs2.hardCollapse (IndexJs2.hardCollapse
        ⟨[("K", ⟨some 1, some 2⟩)], [(1, "K"), (2, "K")], [1, 2]⟩
        2 "socket_closed").1 2 "socket_closed").2 ≠ [] := by decide

/-- C6, amended.  A second hard collapse never changes the state and
never crashes: it is a complete no-op when the session of the
connection no longer exists, and when the connection has already been
removed from both slots of a still-existing session it leaves the
state untouched — but it re-sends the collapse notification to the
slot-a occupant (safeSend to slot a), so the second invocation on a
former slot-b occupant whose peer is still present produces a
duplicate outgoing message rather than none. -/
theorem c6_second_hard_collapse (st : IndexJs2.State) (ws : ConnId) (reason : String) :
    (clookup st.wsSess ws = none → IndexJs2.hardCollapse st ws reason = (st, [])) ∧
    (∀ k, clookup st.wsSess ws = some k → alookup st.table k = none →
      IndexJs2.hardCollapse st ws reason = (st, [])) ∧
    (∀ k s, clookup st.wsSess ws = some k → alookup st.table k = some s →
      s.a ≠ some ws → s.b ≠ some ws → ¬(s.a = none ∧ s.b = none) → ws ∉ st.openConns →
      (IndexJs2.hardCollapse st ws reason).1 = st ∧
      (IndexJs2.hardCollapse st ws reason).2 =
        safeSend st.openConns s.a (.collapse reason)) := by
  refine ⟨?_, ?_, ?_⟩
  · intro hc
    simp [IndexJs2.hardCollapse, hc]
  · intro k hc hs
    simp [IndexJs2.hardCollapse, hc, hs]
  · intro k s hc hs ha hb hnb hopen
    have htab : aset st.table k s = st.table := aset_self hs
    have hfil : st.openConns.filter (fun c => c != ws) = st.openConns :=
      filter_bne_eq_self hopen
    constructor
    · simp only [IndexJs2.hardCollapse, hc, hs, if_neg ha, if_neg hb]
      rw [if_neg hnb, htab, hfil]
    · simp only [IndexJs2.hardCollapse, hc, hs, if_neg ha, if_neg hb]

/-- C6, witness: the no-op cases at concrete states with no session,
and the duplicate-notification case at a concrete state where
connection 2 was already removed from slot b while connection 1 still
holds slot a. -/
theorem c6_witness :
    IndexJs2.hardCollapse ⟨[], [], []⟩ 5 "r" = (⟨[], [], []⟩, []) ∧
    IndexJs2.hardCollapse ⟨[], [(5, "K")], []⟩ 5 "r" = (⟨[], [(5, "K")], []⟩, []) ∧
    ((IndexJs2.hardCollapse ⟨[("K", ⟨some 1, none⟩)], [(1, "K"), (2, "K")], [1]⟩ 2 "r").1 =
        ⟨[("K", ⟨some 1, none⟩)], [(1, "K"), (2, "K")], [1]⟩ ∧
      (IndexJs2.hardCollapse ⟨[("K", ⟨some 1, none⟩)], [(1, "K"), (2, "K")], [1]⟩ 2 "r").2 =
        safeSend [1] (some 1) (.collapse "r")) :=
  ⟨(c6_second_hard_collapse ⟨[], [], []⟩ 5 "r").1 rfl,
   (c6_second_hard_collapse ⟨[], [(5, "K")], []⟩ 5 "r").2.1 "K" rfl rfl,
   (c6_second_hard_collapse ⟨[("K", ⟨some 1, none⟩)], [(1, "K"), (2, "K")], [1]⟩ 2 "r").2.2
     "K" ⟨some 1, none⟩ rfl rfl (by decide) (by decide) (by decide) (by decide)⟩

theorem alookup_mem {β : Type} {t : List (Key × β)} {k : Key} {v : β}
    (h : alookup t k = some v) : (k, v) ∈ t := by
  induction t with
  | nil => simp [alookup] at h
  | cons hd tl ih =>
    by_cases hk : hd.1 = k
    · rw [alookup, if_pos hk] at h
      simp only [Option.some.injEq] at h
      cases hd with
      | mk k0 v0 =>
        simp only at hk h
        rw [List.mem_cons]
        left
        rw [hk, h]
    · rw [alookup, if_neg hk] at h
      exact List.mem_cons_of_mem _ (ih h)

theorem part005_start_obstruction_nodup (st : Part005.State) (actor : ConnId)
    (reason : String) (h : Part005.timersNodup st.table) :
    Part005.timersNodup (Part005.startObstruction st actor reason).1.table := by
  unfold Part005.timersNodup at h ⊢
  unfold Part005.startObstruction
  split
  · exact h
  · split
    · exact h
    · rename_i s heq
      split
      · exact h
      · rename_i p hp
        split
        · exact h
        · rename_i hcond
          have hmem : p ∉ s.timers := by
            intro hmemp
            exact hcond (by simpa [List.contains, List.elem_iff] using hmemp)
          refine @aset_preserves _ (fun v : Part005.Session => v.timers.Nodup) _ _ _ h ?_
          exact List.nodup_cons.mpr ⟨hmem, h _ (alookup_mem heq)⟩

/-- C7.  part_005 keeps at most one obstruction grace timer per
occupant: arming an obstruction whose target peer already has a
pending timer is a complete no-op (no state change, no second timer,
no duplicate peer_obstructed notification), and startObstruction
preserves the invariant that the timers map of every session holds
each occupant at most once (the guard refuses to arm while a timer for
that occupant is pending, until cancelObstruction or cleanup removes
it). -/
theorem c7_obstruction_single_timer :
    (∀ (st : Part005.State) (actor : ConnId) (reason : String) (k : Key)
        (s : Part005.Session) (p : ConnId),
      clookup st.wsSess actor = some k → alookup st.table k = some s →
      (if s.a = some actor then s.b else s.a) = some p →
      s.timers.contains p = true →
      Part005.startObstruction st actor reason = (st, [])) ∧
    (∀ (st : Part005.State) (actor : ConnId) (reason : String),
      Part005.timersNodup st.table →
      Part005.timersNodup (Part005.startObstruction st actor reason).1.table) := by
  constructor
  · intro st actor reason k s p hc hs hp ht
    have hmem : p ∈ s.timers := by simpa [List.contains, List.elem_iff] using ht
    simp [Part005.startObstruction, hc, hs, hp, hmem]
  · exact part005_start_obstruction_nodup

/-- C7, witness: re-arming against the already-obstructed occupant 2
changes nothing and emits nothing; arming on a fresh session keeps the
one-timer-per-occupant invariant. -/
theorem c7_witness :
    Part005.startObstruction ⟨[("K", ⟨some 1, some 2, [2]⟩)], [(1, "K"), (2, "K")], [1, 2]⟩
        1 "bg" = (⟨[("K", ⟨some 1, some 2, [2]⟩)], [(1, "K"), (2, "K")], [1, 2]⟩, []) ∧
    Part005.timersNodup (Part005.startObstruction
        ⟨[("K", ⟨some 1, some 2, []⟩)], [(1, "K"), (2, "K")], [1, 2]⟩ 1 "bg").1.table :=
  ⟨c7_obstruction_single_timer.1
      ⟨[("K", ⟨some 1, some 2, [2]⟩)], [(1, "K"), (2, "K")], [1, 2]⟩
      1 "bg" "K" ⟨some 1, some 2, [2]⟩ 2 rfl rfl rfl rfl,
   c7_obstruction_single_timer.2
      ⟨[("K", ⟨some 1, some 2, []⟩)], [(1, "K"), (2, "K")], [1, 2]⟩
      1 "bg" (by unfold Part005.timersNodup; decide)⟩

/-- C9, counterexample.  First index.js program: connection 1 connects
first on protocol K, connection 2 connects second, and it is the
SECOND connection that is labelled initiator while the first-processed
connection 1 is labelled polite — the opposite of the claim that the
first-processed connection always carries the initiator label. -/
theorem c9_counterexample :
    (IndexJs1.handleConnect (IndexJs1.handleConnect ⟨[], [], [1, 2]⟩ 1 (some "K")).1
        2 (some "K")).2 =
      [(2, .ready (some "initiator")), (1, .ready (some "polite"))] := by decide

/-- C9, amended.  Role assignment is deterministic in each variant but
the mapping differs: in the slot-table variant part_008 the slot-a
occupant (whose join was processed first) is always labelled initiator
and the slot-b filler polite, while in the index.js handshake the
newly arriving (second-processed) connection is always labelled
initiator and the already-present one polite. -/
theorem c9_roles_deterministic :
    (∀ (st : Part008.State) (ws : ConnId) (k : Key) (s : Part008.Session) (x : ConnId),
      alookup st.table k = some s → s.a = some x → s.b = none →
      st.openConns.contains x = true → st.openConns.contains ws = true →
      (Part008.handleJoin st ws (some k)).2 =
        [(x, .ready (some "initiator")), (ws, .ready (some "polite"))]) ∧
    (∀ (st : IndexJs1.State) (ws : ConnId) (addr : Key) (p : ConnId × Key)
        (rest : List (ConnId × Key)),
      (st.clients ++ [(ws, addr)]).filter
          (fun c => c.1 != ws && c.2 == addr && st.openConns.contains c.1) = p :: rest →
      (IndexJs1.handleConnect st ws (some addr)).2 =
        [(ws, .ready (some "initiator")), (p.1, .ready (some "polite"))]) := by
  constructor
  · intro st ws k s x hs ha hb hx hws
    have hx2 : x ∈ st.openConns := by simpa [List.contains, List.elem_iff] using hx
    have hws2 : ws ∈ st.openConns := by simpa [List.contains, List.elem_iff] using hws
    simp [Part008.handleJoin, hs, ha, hb, safeSend, hx2, hws2]
  · intro st ws addr p rest hfil
    unfold IndexJs1.handleConnect
    dsimp only
    rw [hfil]

/-- C9, witness: the two deterministic mappings computed at concrete
states — part_008 gives initiator to the seated slot-a occupant 1;
index.js gives initiator to the arriving connection 2. -/
theorem c9_witness :
    (Part008.handleJoin ⟨[("K", ⟨some 1, none⟩)], [(1, "K")], [1, 2]⟩ 2 (some "K")).2 =
      [(1, .ready (some "initiator")), (2, .ready (some "polite"))] ∧
    (IndexJs1.handleConnect ⟨[("K", ⟨"GUEST", false, some 1⟩)], [(1, "K")], [1, 2]⟩
        2 (some "K")).2 =
      [(2, .ready (some "initiator")), (1, .ready (some "polite"))] :=
  ⟨c9_roles_deterministic.1 ⟨[("K", ⟨some 1, none⟩)], [(1, "K")], [1, 2]⟩ 2 "K"
      ⟨some 1, none⟩ 1 rfl rfl rfl rfl rfl,
   c9_roles_deterministic.2 ⟨[("K", ⟨"GUEST", false, some 1⟩)], [(1, "K")], [1, 2]⟩
      2 "K" (1, "K") [] (by decide)⟩

theorem serverjs_cleanup_keeps_peer (st : ServerJs.State) (w p : ConnId) (k : Key)
    (s : ServerJs.Session) (hc : clookup st.wsSess w = some k)
    (hs : alookup st.table k = some s)
    (hslots : s.a = some w ∧ s.b = some p ∨ s.a = some p ∧ s.b = some w)
    (hwp : w ≠ p) :
    ∃ s1, alookup (ServerJs.cleanup st w).table k = some s1 ∧
      (s1.a = some p ∨ s1.b = some p) := by
  have hpw : p ≠ w := Ne.symm hwp
  rcases hslots with ⟨ha, hb⟩ | ⟨ha, hb⟩
  · refine ⟨⟨none, some p, s.sdpStarted, false⟩, ?_, Or.inr rfl⟩
    simp only [ServerJs.cleanup, hc, hs, ha, hb, Option.some.injEq, hpw]
    simp only [if_true, reduceIte]
    rw [if_neg (by simp [hpw])]
    exact alookup_aset_self _ _ _
  · refine ⟨⟨some p, none, s.sdpStarted, false⟩, ?_, Or.inl rfl⟩
    simp only [ServerJs.cleanup, hc, hs, ha, hb, Option.some.injEq, hpw]
    simp only [if_true, reduceIte]
    rw [if_neg (by simp [hpw])]
    exact alookup_aset_self _ _ _

theorem part005_cleanup_keeps_peer (st : Part005.State) (w p : ConnId) (k : Key)
    (s : Part005.Session) (hc : clookup st.wsSess w = some k)
    (hs : alookup st.table k = some s)
    (hslots : s.a = some w ∧ s.b = some p ∨ s.a = some p ∧ s.b = some w)
    (hwp : w ≠ p) :
    ∃ s1, alookup (Part005.cleanup st w).1.table k = some s1 ∧
      (s1.a = some p ∨ s1.b = some p) := by
  have hpw : p ≠ w := Ne.symm hwp
  rcases hslots with ⟨ha, hb⟩ | ⟨ha, hb⟩
  · refine ⟨⟨none, some p,
      if s.timers.contains w then s.timers.filter (fun c => c != w) else s.timers⟩,
      ?_, Or.inr rfl⟩
    simp only [Part005.cleanup, hc, hs, ha, hb, Option.some.injEq, hpw]
    simp only [if_true, reduceIte]
    rw [if_neg (by simp [hpw])]
    exact alookup_aset_self _ _ _
  · refine ⟨⟨some p, none,
      if s.timers.contains w then s.timers.filter (fun c => c != w) else s.timers⟩,
      ?_, Or.inl rfl⟩
    simp only [Part005.cleanup, hc, hs, ha, hb, Option.some.injEq, hpw]
    simp only [if_true, reduceIte]
    rw [if_neg (by simp [hpw])]
    exact alookup_aset_self _ _ _

theorem indexjs2_collapse_keeps_peer (st : IndexJs2.State) (w p : ConnId) (k : Key)
    (s : IndexJs2.Session) (r : String) (hc : clookup st.wsSess w = some k)
    (hs : alookup st.table k = some s)
    (hslots : s.a = some w ∧ s.b = some p ∨ s.a = some p ∧ s.b = some w)
    (hwp : w ≠ p) :
    ∃ s1, alookup (IndexJs2.hardCollapse st w r).1.table k = some s1 ∧
      (s1.a = some p ∨ s1.b = some p) := by
  have hpw : p ≠ w := Ne.symm hwp
  rcases hslots with ⟨ha, hb⟩ | ⟨ha, hb⟩
  · refine ⟨⟨none, some p⟩, ?_, Or.inr rfl⟩
    simp only [IndexJs2.hardCollapse, hc, hs, ha, hb, Option.some.injEq, hpw]
    simp only [if_true, reduceIte]
    rw [if_neg (by simp [hpw])]
    exact alookup_aset_self _ _ _
  · refine ⟨⟨some p, none⟩, ?_, Or.inl rfl⟩
    simp only [IndexJs2.hardCollapse, hc, hs, ha, hb, Option.some.injEq, hpw]
    simp only [if_true, reduceIte]
    rw [if_neg (by simp [hpw])]
    exact alookup_aset_self _ _ _

theorem serverjs_getPeer_eq (st : ServerJs.State) (w p : ConnId) (k : Key)
    (s : ServerJs.Session) (hc : clookup st.wsSess w = some k)
    (hs : alookup st.table k = some s)
    (hslots : s.a = some w ∧ s.b = some p ∨ s.a = some p ∧ s.b = some w)
    (hwp : w ≠ p) : ServerJs.getPeer st w = some p := by
  have hpw : p ≠ w := Ne.symm hwp
  rcases hslots with ⟨ha, hb⟩ | ⟨ha, hb⟩
  · simp [ServerJs.getPeer, hc, hs, ha, hb]
  · simp [ServerJs.getPeer, hc, hs, ha, hb, hpw]

theorem part005_getPeer_eq (st : Part005.State) (w p : ConnId) (k : Key)
    (s : Part005.Session) (hc : clookup st.wsSess w = some k)
    (hs : alookup st.table k = some s)
    (hslots : s.a = some w ∧ s.b = some p ∨ s.a = some p ∧ s.b = some w)
    (hwp : w ≠ p) : Part005.getPeer st w = some p := by
  have hpw : p ≠ w := Ne.symm hwp
  rcases hslots with ⟨ha, hb⟩ | ⟨ha, hb⟩
  · simp [Part005.getPeer, Part005.getSession, hc, hs, ha, hb]
  · simp [Part005.getPeer, Part005.getSession, hc, hs, ha, hb, hpw]

/-- Supporting fact for the teardown claim: on the session-table
teardown paths of a paired session the surviving occupant p (with an
open socket) is notified before the session entry disappears — the
collapse case and the close handler of server.js (the heartbeat sweep
terminates the socket, which fires the same close handler),
hardCollapse of part_005 (also run by its close handler and its
heartbeat sweep) and hardCollapse of the second index.js program each
emit the terminal reason-carrying message to p, and the resulting
session table still holds the entry with p in a slot.  The first
index.js program is the exception; see the claim theorem below. -/
theorem teardown_notifies_survivor :
    (∀ (st : ServerJs.State) (w p : ConnId) (k : Key) (s : ServerJs.Session)
        (r? : Option String),
      clookup st.wsSess w = some k → alookup st.table k = some s →
      (s.a = some w ∧ s.b = some p ∨ s.a = some p ∧ s.b = some w) → w ≠ p →
      st.openConns.contains p = true →
      (ServerJs.handleCollapse st w r?).2 = [(p, .collapse (r?.getD "peer_exit"))] ∧
      ∃ s1, alookup (ServerJs.handleCollapse st w r?).1.table k = some s1 ∧
        (s1.a = some p ∨ s1.b = some p)) ∧
    (∀ (st : ServerJs.State) (w p : ConnId) (k : Key) (s : ServerJs.Session),
      clookup st.wsSess w = some k → alookup st.table k = some s →
      (s.a = some w ∧ s.b = some p ∨ s.a = some p ∧ s.b = some w) → w ≠ p →
      st.openConns.contains p = true →
      (ServerJs.handleClose st w).2 = [(p, .collapse "peer_lost")] ∧
      ∃ s1, alookup (ServerJs.handleClose st w).1.table k = some s1 ∧
        (s1.a = some p ∨ s1.b = some p)) ∧
    (∀ (st : Part005.State) (w p : ConnId) (k : Key) (s : Part005.Session) (r : String),
      clookup st.wsSess w = some k → alookup st.table k = some s →
      (s.a = some w ∧ s.b = some p ∨ s.a = some p ∧ s.b = some w) → w ≠ p →
      st.openConns.contains p = true →
      (p, Payload.collapseHard r) ∈ (Part005.hardCollapse st w r).2 ∧
      ∃ s1, alookup (Part005.hardCollapse st w r).1.table k = some s1 ∧
        (s1.a = some p ∨ s1.b = some p)) ∧
    (∀ (st : IndexJs2.State) (w p : ConnId) (k : Key) (s : IndexJs2.Session) (r : String),
      clookup st.wsSess w = some k → alookup st.table k = some s →
      (s.a = some w ∧ s.b = some p ∨ s.a = some p ∧ s.b = some w) → w ≠ p →
      st.openConns.contains p = true →
      (IndexJs2.hardCollapse st w r).2 = [(p, .collapse r)] ∧
      ∃ s1, alookup (IndexJs2.hardCollapse st w r).1.table k = some s1 ∧
        (s1.a = some p ∨ s1.b = some p)) := by
  refine ⟨?_, ?_, ?_, ?_⟩
  · intro st w p k s r? hc hs hslots hwp hp
    have hp2 : p ∈ st.openConns := by simpa [List.contains, List.elem_iff] using hp
    have hpe := serverjs_getPeer_eq st w p k s hc hs hslots hwp
    refine ⟨?_, serverjs_cleanup_keeps_peer st w p k s hc hs hslots hwp⟩
    simp [ServerJs.handleCollapse, hpe, safeSend, hp2]
  · intro st w p k s hc hs hslots hwp hp
    have hp2 : p ∈ st.openConns := by simpa [List.contains, List.elem_iff] using hp
    have hpe := serverjs_getPeer_eq st w p k s hc hs hslots hwp
    refine ⟨?_, serverjs_cleanup_keeps_peer st w p k s hc hs hslots hwp⟩
    simp [ServerJs.handleClose, hpe, safeSend, hp2]
  · intro st w p k s r hc hs hslots hwp hp
    have hp2 : p ∈ st.openConns := by simpa [List.contains, List.elem_iff] using hp
    have hpe := part005_getPeer_eq st w p k s hc hs hslots hwp
    refine ⟨?_, part005_cleanup_keeps_peer st w p k s hc hs hslots hwp⟩
    have hout : (Part005.hardCollapse st w r).2 =
        [(p, Payload.collapseHard r)] ++ (Part005.cleanup st w).2 := by
      simp [Part005.hardCollapse, hpe, safeSend, hp2]
    rw [hout]
    exact List.mem_append_left _ (List.mem_singleton_self _)
  · intro st w p k s r hc hs hslots hwp hp
    have hpw : p ≠ w := Ne.symm hwp
    have hp2 : p ∈ st.openConns := by simpa [List.contains, List.elem_iff] using hp
    have hpeer : (if s.a = some w then s.b else s.a) = some p := by
      rcases hslots with ⟨ha, hb⟩ | ⟨ha, hb⟩
      · simp [ha, hb]
      · simp [ha, hb, hpw]
    refine ⟨?_, indexjs2_collapse_keeps_peer st w p k s r hc hs hslots hwp⟩
    simp [IndexJs2.hardCollapse, hc, hs, hpeer, safeSend, hp2]

/-- Concrete instances of the four notifying teardown paths: each
delivers the terminal notice to the surviving occupant and leaves the
session entry in the table with that occupant. -/
theorem teardown_notifies_survivor_examples :
    ((ServerJs.handleCollapse
        ⟨[("K", ⟨some 1, some 2, false, true⟩)], [(1, "K"), (2, "K")], [1, 2]⟩ 2 none).2 =
      [(1, .collapse "peer_exit")] ∧
      ∃ s1, alookup (ServerJs.handleCollapse
        ⟨[("K", ⟨some 1, some 2, false, true⟩)], [(1, "K"), (2, "K")], [1, 2]⟩
          2 none).1.table "K" = some s1 ∧ (s1.a = some 1 ∨ s1.b = some 1)) ∧
    ((ServerJs.handleClose
        ⟨[("K", ⟨some 1, some 2, false, true⟩)], [(1, "K"), (2, "K")], [1, 2]⟩ 1).2 =
      [(2, .collapse "peer_lost")] ∧
      ∃ s1, alookup (ServerJs.handleClose
        ⟨[("K", ⟨some 1, some 2, false, true⟩)], [(1, "K"), (2, "K")], [1, 2]⟩
          1).1.table "K" = some s1 ∧ (s1.a = some 2 ∨ s1.b = some 2)) ∧
    ((1, Payload.collapseHard "socket_closed") ∈ (Part005.hardCollapse
        ⟨[("K", ⟨some 1, some 2, []⟩)], [(1, "K"), (2, "K")], [1, 2]⟩ 2 "socket_closed").2 ∧
      ∃ s1, alookup (Part005.hardCollapse
        ⟨[("K", ⟨some 1, some 2, []⟩)], [(1, "K"), (2, "K")], [1, 2]⟩
          2 "socket_closed").1.table "K" = some s1 ∧ (s1.a = some 1 ∨ s1.b = some 1)) ∧
    ((IndexJs2.hardCollapse
        ⟨[("K", ⟨some 1, some 2⟩)], [(1, "K"), (2, "K")], [1, 2]⟩ 1 "socket_closed").2 =
      [(2, .collapse "socket_closed")] ∧
      ∃ s1, alookup (IndexJs2.hardCollapse
        ⟨[("K", ⟨some 1, some 2⟩)], [(1, "K"), (2, "K")], [1, 2]⟩
          1 "socket_closed").1.table "K" = some s1 ∧ (s1.a = some 2 ∨ s1.b = some 2)) :=
  ⟨teardown_notifies_survivor.1
      ⟨[("K", ⟨some 1, some 2, false, true⟩)], [(1, "K"), (2, "K")], [1, 2]⟩
      2 1 "K" ⟨some 1, some 2, false, true⟩ none rfl rfl (Or.inr ⟨rfl, rfl⟩)
      (by decide) rfl,
   teardown_notifies_survivor.2.1
      ⟨[("K", ⟨some 1, some 2, false, true⟩)], [(1, "K"), (2, "K")], [1, 2]⟩
      1 2 "K" ⟨some 1, some 2, false, true⟩ rfl rfl (Or.inl ⟨rfl, rfl⟩)
      (by decide) rfl,
   teardown_notifies_survivor.2.2.1
      ⟨[("K", ⟨some 1, some 2, []⟩)], [(1, "K"), (2, "K")], [1, 2]⟩
      2 1 "K" ⟨some 1, some 2, []⟩ "socket_closed" rfl rfl (Or.inr ⟨rfl, rfl⟩)
      (by decide) rfl,
   teardown_notifies_survivor.2.2.2
      ⟨[("K", ⟨some 1, some 2⟩)], [(1, "K"), (2, "K")], [1, 2]⟩
      1 2 "K" ⟨some 1, some 2⟩ "socket_closed" rfl rfl (Or.inl ⟨rfl, rfl⟩)
      (by decide) rfl⟩

/-- C10.  The SDP watchdog of server.js: the timeout constant is
15000 ms; pairing (a join that fills slot b) arms the watchdog; when
the armed timer fires on a session that has not relayed any
webrtc_offer / webrtc_answer / webrtc_ice payload (sdpStarted still
false) both occupants receive collapse with reason sdp_timeout and
both are cleaned up, which removes the session entry; when the session
has relayed such a payload (sdpStarted true, set by the relay case as
soon as a peer exists) the firing callback does nothing, so the
watchdog is suppressed permanently. -/
theorem c10_sdp_watchdog :
    ServerJs.SDP_TIMEOUT_MS = 15000 ∧
    (∀ (st : ServerJs.State) (ws : ConnId) (k : Key) (s : ServerJs.Session),
      alookup st.table k = some s → s.b = none →
      alookup (ServerJs.handleJoin st ws (some k)).1.table k =
        some { s with b := some ws, sdpTimerArmed := true }) ∧
    (∀ (st : ServerJs.State) (k : Key) (s : ServerJs.Session) (x y : ConnId),
      alookup st.table k = some s → s.sdpTimerArmed = true → s.sdpStarted = false →
      s.a = some x → s.b = some y → x ≠ y →
      clookup st.wsSess x = some k → clookup st.wsSess y = some k →
      st.openConns.contains x = true → st.openConns.contains y = true →
      (ServerJs.fireSdpTimer st k).2 =
        [(x, .collapse "sdp_timeout"), (y, .collapse "sdp_timeout")] ∧
      alookup (ServerJs.fireSdpTimer st k).1.table k = none) ∧
    (∀ (st : ServerJs.State) (k : Key) (s : ServerJs.Session),
      alookup st.table k = some s → s.sdpStarted = true →
      ServerJs.fireSdpTimer st k = (st, [])) ∧
    (∀ (st : ServerJs.State) (ws : ConnId) (k : Key) (s : ServerJs.Session)
        (p : ConnId) (ty body : String),
      clookup st.wsSess ws = some k → alookup st.table k = some s →
      ServerJs.getPeer st ws = some p →
      alookup (ServerJs.handleWebrtc st ws ty body).1.table k =
        some { s with sdpStarted := true }) := by
  refine ⟨rfl, ?_, ?_, ?_, ?_⟩
  · intro st ws k s hs hb
    simp only [ServerJs.handleJoin, hs, hb, reduceIte]
    exact alookup_aset_self _ _ _
  · intro st k s x y hs harm hns ha hb hxy hwx hwy hx hy
    have hyx : y ≠ x := Ne.symm hxy
    have hx2 : x ∈ st.openConns := by simpa [List.contains, List.elem_iff] using hx
    have hy2 : y ∈ st.openConns := by simpa [List.contains, List.elem_iff] using hy
    have h1 : ServerJs.cleanup st x =
        { st with table := aset st.table k ⟨none, some y, s.sdpStarted, false⟩ } := by
      simp only [ServerJs.cleanup, hwx, hs, ha, hb, Option.some.injEq, hyx]
      simp only [reduceIte]
      rw [if_neg (by simp [hyx])]
    constructor
    · simp [ServerJs.fireSdpTimer, hs, hns, ha, hb, safeSend, hx2, hy2]
    · simp only [ServerJs.fireSdpTimer, hs, hns, ha, hb]
      simp only [Bool.false_eq_true, reduceIte]
      rw [h1]
      simp only [ServerJs.cleanup, hwy, alookup_aset_self]
      simp only [reduceIte]
      rw [if_pos (by simp)]
      exact alookup_aerase_self _ _
  · intro st k s hs hsd
    simp [ServerJs.fireSdpTimer, hs, hsd]
  · intro st ws k s p ty body hc hs hp
    by_cases hsd : s.sdpStarted
    · have heq : { s with sdpStarted := true } = s := by
        cases s
        simp only at hsd
        simp [hsd]
      rw [heq]
      simp [ServerJs.handleWebrtc, hp, hc, hs, hsd]
    · simp only [ServerJs.handleWebrtc, hp, hc, hs, if_neg hsd]
      exact alookup_aset_self _ _ _

/-- C10, witness: the watchdog arming, firing, suppression and
flag-setting conjuncts exercised on concrete sessions. -/
theorem c10_witness :
    alookup (ServerJs.handleJoin ⟨[("K", ⟨some 1, none, false, false⟩)], [(1, "K")], [1, 2]⟩
        2 (some "K")).1.table "K" = some ⟨some 1, some 2, false, true⟩ ∧
    ((ServerJs.fireSdpTimer
        ⟨[("K", ⟨some 1, some 2, false, true⟩)], [(1, "K"), (2, "K")], [1, 2]⟩ "K").2 =
      [(1, .collapse "sdp_timeout"), (2, .collapse "sdp_timeout")] ∧
      alookup (ServerJs.fireSdpTimer
        ⟨[("K", ⟨some 1, some 2, false, true⟩)], [(1, "K"), (2, "K")], [1, 2]⟩
          "K").1.table "K" = none) ∧
    ServerJs.fireSdpTimer
        ⟨[("K", ⟨some 1, some 2, true, true⟩)], [(1, "K"), (2, "K")], [1, 2]⟩ "K" =
      (⟨[("K", ⟨some 1, some 2, true, true⟩)], [(1, "K"), (2, "K")], [1, 2]⟩, []) ∧
    alookup (ServerJs.handleWebrtc
        ⟨[("K", ⟨some 1, some 2, false, true⟩)], [(1, "K"), (2, "K")], [1, 2]⟩
        1 "webrtc_offer" "sdp").1.table "K" = some ⟨some 1, some 2, true, true⟩ :=
  ⟨c10_sdp_watchdog.2.1 ⟨[("K", ⟨some 1, none, false, false⟩)], [(1, "K")], [1, 2]⟩
      2 "K" ⟨some 1, none, false, false⟩ rfl rfl,
   c10_sdp_watchdog.2.2.1 ⟨[("K", ⟨some 1, some 2, false, true⟩)], [(1, "K"), (2, "K")], [1, 2]⟩
      "K" ⟨some 1, some 2, false, true⟩ 1 2 rfl rfl rfl rfl rfl (by decide) rfl rfl rfl rfl,
   c10_sdp_watchdog.2.2.2.1 ⟨[("K", ⟨some 1, some 2, true, true⟩)], [(1, "K"), (2, "K")], [1, 2]⟩
      "K" ⟨some 1, some 2, true, true⟩ rfl rfl,
   c10_sdp_watchdog.2.2.2.2 ⟨[("K", ⟨some 1, some 2, false, true⟩)], [(1, "K"), (2, "K")], [1, 2]⟩
      1 "K" ⟨some 1, some 2, false, true⟩ 2 "webrtc_offer" "sdp" rfl rfl rfl⟩

/-- C3, code evaluated at the failing input.  First index.js program,
peers 1 and 2 paired on address K with an ephemeral registry entry
(socket linked to connection 2): when connection 2 closes, the close
handler deletes the entry and the surviving peer 1 receives only a
registry_update snapshot — a broadcast that carries no reason code and
is not a terminal notification — and when the entry is persistent
(a minted address) the survivor receives nothing at all; on neither
branch does any collapse-type message reach the survivor, so this
teardown path makes the peer disappear silently, against the claim. -/
theorem c3_indexjs_close_no_terminal_notice :
    (IndexJs1.handleClose ⟨[("K", ⟨"GUEST", false, some 2⟩)], [(1, "K"), (2, "K")], [1, 2]⟩
        2 "K").2 = [(1, .registryUpdate [])] ∧
    (IndexJs1.handleClose ⟨[("K", ⟨"Nick", true, some 2⟩)], [(1, "K"), (2, "K")], [1, 2]⟩
        2 "K").2 = [] := by decide
